import Mathlib

/-!
Shallow embedding of `src/fetch_tech_news.py`, an RSS aggregation pipeline:
per-feed fetch/parse (`fetch_feed`), per-entry normalization, a 24-hour
recency filter, a stable descending sort on publish time, truncation to the
top 10 entries, and a plain-text report.

Modelling conventions:
* Python `datetime` values (always UTC in this program, `tzinfo=timezone.utc`)
  are `DateTime` records of six `Nat` fields; the Python comparison on
  timezone-aware datetimes with the same offset is lexicographic on
  (year, month, day, hour, minute, second), embedded as `DateTime.le`.
* `feedparser.parse` and the network are outside the program; a fetch outcome
  is therefore an input of type `Except String (List RawEntry)`: `.error e`
  when retrieval/parsing raises an exception with message `e`, `.ok entries`
  when it yields raw feed entries.
* A raw feedparser entry is accessed with `hasattr` guards for
  `published_parsed`, `updated_parsed` and `link`, but `entry.title` is read
  unguarded and raises `AttributeError` when absent; `RawEntry` models each
  field as an `Option` (`none` = attribute absent or falsy) and
  `normalizeEntry` returns `Except`, erring exactly where the Python
  attribute access raises.
* `print` output is modelled as a list of strings, one per `print` call.
* `cutoff_time = datetime.now(timezone.utc) - timedelta(hours=24)` is computed
  once before the loop; the pipeline is parametrised by that cutoff value
  (calendar arithmetic on `now` plays no role in any claim).
-/

namespace TechNews

/-- A UTC timestamp, as built by `datetime(*struct_time[:6], tzinfo=timezone.utc)`. -/
structure DateTime where
  year : Nat
  month : Nat
  day : Nat
  hour : Nat
  minute : Nat
  second : Nat
deriving DecidableEq, Repr

/-- Python comparison `a <= b` on UTC datetimes: lexicographic on the six fields. -/
def DateTime.le (a b : DateTime) : Bool :=
  decide (a.year < b.year) ||
  (decide (a.year = b.year) &&
    (decide (a.month < b.month) ||
      (decide (a.month = b.month) &&
        (decide (a.day < b.day) ||
          (decide (a.day = b.day) &&
            (decide (a.hour < b.hour) ||
              (decide (a.hour = b.hour) &&
                (decide (a.minute < b.minute) ||
                  (decide (a.minute = b.minute) &&
                    decide (a.second ≤ b.second))))))))))

/-- `datetime.min.replace(tzinfo=timezone.utc)`: year 1, month 1, day 1, midnight. -/
def datetimeMin : DateTime := ⟨1, 1, 1, 0, 0, 0⟩

/-- A raw feedparser entry. Each field is `none` when the attribute is absent
(or, for the parsed dates, present but falsy — the `hasattr ... and ...` guard
treats both alike). -/
structure RawEntry where
  title : Option String
  published_parsed : Option DateTime
  updated_parsed : Option DateTime
  link : Option String
deriving DecidableEq, Repr

/-- The dictionary appended for each entry: headline, source, date, link. -/
structure NormalizedEntry where
  headline : String
  source : String
  date : Option DateTime
  link : String
deriving DecidableEq, Repr

/-- Lines 14-18 of the source: `pub_date = None`; use `published_parsed` when
present and truthy, else `updated_parsed` when present and truthy. -/
def extractDate (entry : RawEntry) : Option DateTime :=
  match entry.published_parsed with
  | some d => some d
  | none => entry.updated_parsed

/-- Error message of the `AttributeError` raised by the unguarded
`entry.title` access when the attribute is missing. -/
def titleError : String := "object has no attribute title"

/-- Lines 13-25 of the source, for one raw entry: compute `pub_date`, then
build the dictionary. `entry.title` is accessed without a `hasattr` guard and
raises when absent; `entry.link` is guarded and defaults to the empty
string. -/
def normalizeEntry (source_name : String) (entry : RawEntry) :
    Except String NormalizedEntry :=
  let pub_date := extractDate entry
  match entry.title with
  | none => Except.error titleError
  | some t =>
      Except.ok
        { headline := t
          source := source_name
          date := pub_date
          link := entry.link.getD "" }

/-- The `for entry in feed.entries[:5]` loop body with `entries.append`:
normalize each raw entry in order, propagating the first raised exception. -/
def normalizeLoop (source_name : String) :
    List RawEntry → Except String (List NormalizedEntry)
  | [] => Except.ok []
  | e :: rest =>
      match normalizeEntry source_name e with
      | Except.error err => Except.error err
      | Except.ok ne =>
          match normalizeLoop source_name rest with
          | Except.error err => Except.error err
          | Except.ok nes => Except.ok (ne :: nes)

/-- The body of the `try` block in `fetch_feed`: parse outcome, then the
normalization loop over the first 5 entries. -/
def fetchBody (feed : Except String (List RawEntry)) (source_name : String) :
    Except String (List NormalizedEntry) :=
  match feed with
  | Except.error e => Except.error e
  | Except.ok es => normalizeLoop source_name (es.take 5)

/-- The diagnostic printed by the `except` clause:
`print(f"Error fetching ...: ...")` with the source name and error detail. -/
def errorLine (source_name e : String) : String :=
  "Error fetching " ++ source_name ++ ": " ++ e

/-- Lines 7-29: `fetch_feed` returns the normalized entries, or on any
exception prints a diagnostic and returns the empty list. The second component
collects the printed diagnostic lines. -/
def fetch_feed (feed : Except String (List RawEntry)) (source_name : String) :
    List NormalizedEntry × List String :=
  match fetchBody feed source_name with
  | Except.ok entries => (entries, [])
  | Except.error e => ([], [errorLine source_name e])

/-- Line 48: the entry date is None, or the entry date is at least cutoff_time. -/
def qualifies (cutoff_time : DateTime) (e : NormalizedEntry) : Bool :=
  match e.date with
  | none => true
  | some d => DateTime.le cutoff_time d

/-- The sort key of line 52: the entry date when present, else datetime.min
with UTC attached (datetimes are always truthy, None is falsy). -/
def sortKey (e : NormalizedEntry) : DateTime := e.date.getD datetimeMin

/-- The comparison under which `list.sort(key=..., reverse=True)` orders the
list: `a` may precede `b` when `key b <= key a` (descending). -/
def sortLe (a b : NormalizedEntry) : Bool :=
  DateTime.le (sortKey b) (sortKey a)

/-- Feed inputs of one run: for each configured `(url, source)` pair, the
outcome of dereferencing and parsing that url, paired with the source name. -/
abbrev FeedInput := Except String (List RawEntry) × String

/-- Lines 41-49: the `all_entries` accumulator after the nested loops — each
feed is fetched in order and its entries passing the recency filter are
appended. -/
def all_entries (cutoff_time : DateTime) (feeds : List FeedInput) :
    List NormalizedEntry :=
  (feeds.map (fun f => (fetch_feed f.1 f.2).1.filter (qualifies cutoff_time))).flatten

/-- Line 52: `all_entries.sort(key=..., reverse=True)` — a stable descending
sort by the date key (the Python sort is stable, also in reverse mode). -/
def sortedEntries (cutoff_time : DateTime) (feeds : List FeedInput) :
    List NormalizedEntry :=
  (all_entries cutoff_time feeds).mergeSort sortLe

/-- Line 55: `top_10 = all_entries[:10]`. -/
def top_10 (cutoff_time : DateTime) (feeds : List FeedInput) :
    List NormalizedEntry :=
  (sortedEntries cutoff_time feeds).take 10

/-- The diagnostic lines printed during the fetch loop, in feed order. -/
def diagnostics (feeds : List FeedInput) : List String :=
  (feeds.map (fun f => (fetch_feed f.1 f.2).2)).flatten

/-- Zero-pad to two digits, as `strftime` does for `%m %d %H %M`. -/
def pad2 (n : Nat) : String :=
  if n < 10 then "0" ++ toString n else toString n

/-- Zero-pad to four digits, as `strftime` does for `%Y`. -/
def pad4 (n : Nat) : String :=
  if n < 10 then "000" ++ toString n
  else if n < 100 then "00" ++ toString n
  else if n < 1000 then "0" ++ toString n
  else toString n

/-- Line 61: strftime with format %Y-%m-%d %H:%M UTC when the item has a date,
else the literal marker Unknown. -/
def formatDate : Option DateTime → String
  | some d =>
      pad4 d.year ++ "-" ++ pad2 d.month ++ "-" ++ pad2 d.day ++ " " ++
        pad2 d.hour ++ ":" ++ pad2 d.minute ++ " UTC"
  | none => "Unknown"

/-- Lines 60-65: the report loop, `enumerate(top_10, 1)`; four printed lines
per item (the numbered headline, the source, the date, a blank line). -/
def renderItems (i : Nat) : List NormalizedEntry → List String
  | [] => []
  | item :: rest =>
      (toString i ++ ". " ++ item.headline) ::
      ("   Source: " ++ item.source) ::
      ("   Date: " ++ formatDate item.date) ::
      "" ::
      renderItems (i + 1) rest

/-- Line 58: `"=" * 80`. -/
def separatorLine : String := String.mk (List.replicate 80 '=')

/-- Lines 57-65: the full report — header with the count, separator rule,
then the items, 1-indexed. -/
def render (top : List NormalizedEntry) : List String :=
  ("Top " ++ toString top.length ++ " Technology News Headlines\n") ::
  separatorLine ::
  renderItems 1 top

/-- Lines 44-67 of `main`: printed output (fetch diagnostics then the report),
together with the returned `top_10` list. -/
def mainRun (cutoff_time : DateTime) (feeds : List FeedInput) :
    List NormalizedEntry × List String :=
  (top_10 cutoff_time feeds,
    diagnostics feeds ++ render (top_10 cutoff_time feeds))

/-- A concrete run input for the sort-order analysis: one feed whose two
entries share the same publish time. -/
def feedsTied : List FeedInput :=
  [(Except.ok
      [⟨some "A", some ⟨2026, 10, 12, 9, 0, 0⟩, none, none⟩,
       ⟨some "B", some ⟨2026, 10, 12, 9, 0, 0⟩, none, none⟩], "TechCrunch")]

/-- The cutoff used with `feedsTied` (both entries qualify). -/
def cutoffTied : DateTime := ⟨2026, 10, 11, 12, 0, 0⟩

/-! ### Order lemmas for `DateTime.le` -/

theorem DateTime.le_iff (a b : DateTime) : DateTime.le a b = true ↔
    (a.year < b.year ∨ (a.year = b.year ∧
      (a.month < b.month ∨ (a.month = b.month ∧
        (a.day < b.day ∨ (a.day = b.day ∧
          (a.hour < b.hour ∨ (a.hour = b.hour ∧
            (a.minute < b.minute ∨ (a.minute = b.minute ∧
              a.second ≤ b.second)))))))))) := by
  simp [DateTime.le]

theorem DateTime.le_refl (a : DateTime) : DateTime.le a a = true := by
  rw [DateTime.le_iff]
  omega

theorem DateTime.le_trans (a b c : DateTime)
    (hab : DateTime.le a b = true) (hbc : DateTime.le b c = true) :
    DateTime.le a c = true := by
  rw [DateTime.le_iff] at hab hbc ⊢
  omega

theorem DateTime.le_total (a b : DateTime) :
    (DateTime.le a b || DateTime.le b a) = true := by
  rw [Bool.or_eq_true, DateTime.le_iff, DateTime.le_iff]
  omega

theorem sortLe_trans (a b c : NormalizedEntry)
    (hab : sortLe a b) (hbc : sortLe b c) : sortLe a c :=
  DateTime.le_trans _ _ _ hbc hab

theorem sortLe_total (a b : NormalizedEntry) : (sortLe a b || sortLe b a) = true :=
  DateTime.le_total (sortKey b) (sortKey a)

/-! ### Helper lemmas on normalization and fetching -/

theorem normalizeEntry_ok_iff (s : String) (raw : RawEntry) (x : NormalizedEntry) :
    normalizeEntry s raw = Except.ok x ↔
      (raw.title = some x.headline ∧ x.source = s ∧
        x.date = extractDate raw ∧ x.link = raw.link.getD "") := by
  cases x with
  | mk hd src dt lk =>
    cases ht : raw.title with
    | none => simp [normalizeEntry, ht]
    | some t =>
      simp only [normalizeEntry, ht]
      constructor
      · intro h
        cases h
        simp_all
      · rintro ⟨h1, h2, h3, h4⟩
        cases h1
        simp_all

theorem normalizeLoop_ok_of_titles (s : String) :
    ∀ l : List RawEntry, (∀ e ∈ l, e.title.isSome) →
      normalizeLoop s l = Except.ok
        (l.map (fun e =>
          { headline := e.title.getD ""
            source := s
            date := extractDate e
            link := e.link.getD "" })) := by
  intro l
  induction l with
  | nil => intro _; rfl
  | cons e rest ih =>
    intro h
    have he : e.title.isSome := h e (List.mem_cons_self e rest)
    obtain ⟨t, ht⟩ := Option.isSome_iff_exists.mp he
    have hrest := ih (fun x hx => h x (List.mem_cons_of_mem e hx))
    simp [normalizeLoop, normalizeEntry, ht, hrest]

theorem normalizeLoop_error_of_missing_title (s : String) :
    ∀ l : List RawEntry, (∃ e ∈ l, e.title = none) →
      normalizeLoop s l = Except.error titleError := by
  intro l
  induction l with
  | nil => rintro ⟨e, he, _⟩; cases he
  | cons e rest ih =>
    rintro ⟨e0, he0, ht0⟩
    rcases List.mem_cons.mp he0 with h | h
    · subst h
      simp [normalizeLoop, normalizeEntry, ht0]
    · cases hte : e.title with
      | none => simp [normalizeLoop, normalizeEntry, hte]
      | some t =>
        have hrest := ih ⟨e0, h, ht0⟩
        simp [normalizeLoop, normalizeEntry, hte, hrest]

theorem normalizeLoop_mem (s : String) :
    ∀ (l : List RawEntry) (res : List NormalizedEntry),
      normalizeLoop s l = Except.ok res →
      ∀ x ∈ res, ∃ raw ∈ l, normalizeEntry s raw = Except.ok x := by
  intro l
  induction l with
  | nil =>
    intro res h x hx
    simp only [normalizeLoop] at h
    cases h
    cases hx
  | cons e rest ih =>
    intro res h x hx
    simp only [normalizeLoop] at h
    cases he : normalizeEntry s e with
    | error err => rw [he] at h; cases h
    | ok ne =>
      rw [he] at h
      cases hrest : normalizeLoop s rest with
      | error err => rw [hrest] at h; cases h
      | ok nes =>
        rw [hrest] at h
        cases h
        rcases List.mem_cons.mp hx with h | h
        · exact ⟨e, List.mem_cons_self e rest, h ▸ he⟩
        · obtain ⟨raw, hraw, hok⟩ := ih nes hrest x h
          exact ⟨raw, List.mem_cons_of_mem e hraw, hok⟩

theorem normalizeLoop_length (s : String) :
    ∀ (l : List RawEntry) (res : List NormalizedEntry),
      normalizeLoop s l = Except.ok res → res.length = l.length := by
  intro l
  induction l with
  | nil =>
    intro res h
    simp only [normalizeLoop] at h
    cases h
    rfl
  | cons e rest ih =>
    intro res h
    simp only [normalizeLoop] at h
    cases he : normalizeEntry s e with
    | error err => rw [he] at h; cases h
    | ok ne =>
      rw [he] at h
      cases hrest : normalizeLoop s rest with
      | error err => rw [hrest] at h; cases h
      | ok nes =>
        rw [hrest] at h
        cases h
        simp [ih nes hrest]

theorem mem_fetch_feed (feed : Except String (List RawEntry)) (s : String)
    (x : NormalizedEntry) (hx : x ∈ (fetch_feed feed s).1) :
    ∃ rs, feed = Except.ok rs ∧
      ∃ raw ∈ rs.take 5, normalizeEntry s raw = Except.ok x := by
  cases feed with
  | error e => simp [fetch_feed, fetchBody] at hx
  | ok rs =>
    refine ⟨rs, rfl, ?_⟩
    cases hloop : normalizeLoop s (rs.take 5) with
    | error err => simp [fetch_feed, fetchBody, hloop] at hx
    | ok res =>
      simp only [fetch_feed, fetchBody, hloop] at hx
      exact normalizeLoop_mem s (rs.take 5) res hloop x hx

theorem fetch_feed_source (feed : Except String (List RawEntry)) (s : String) :
    ∀ x ∈ (fetch_feed feed s).1, x.source = s := by
  intro x hx
  obtain ⟨rs, _, raw, _, hok⟩ := mem_fetch_feed feed s x hx
  exact ((normalizeEntry_ok_iff s raw x).mp hok).2.1

theorem mem_all_entries (c : DateTime) (feeds : List FeedInput)
    (x : NormalizedEntry) :
    x ∈ all_entries c feeds ↔
      (∃ f ∈ feeds, x ∈ (fetch_feed f.1 f.2).1) ∧ qualifies c x = true := by
  simp only [all_entries, List.mem_flatten, List.mem_map]
  constructor
  · rintro ⟨l, ⟨f, hf, rfl⟩, hx⟩
    have := List.mem_filter.mp hx
    exact ⟨⟨f, hf, this.1⟩, this.2⟩
  · rintro ⟨⟨f, hf, hx⟩, hq⟩
    exact ⟨_, ⟨f, hf, rfl⟩, List.mem_filter.mpr ⟨hx, hq⟩⟩

theorem qualifies_iff (c : DateTime) (x : NormalizedEntry) :
    qualifies c x = true ↔
      (x.date = none ∨ ∃ d, x.date = some d ∧ DateTime.le c d = true) := by
  cases hd : x.date with
  | none => simp [qualifies, hd]
  | some d => simp [qualifies, hd]

theorem extractDate_eq_none_iff (e : RawEntry) :
    extractDate e = none ↔
      (e.published_parsed = none ∧ e.updated_parsed = none) := by
  cases h : e.published_parsed with
  | none => simp [extractDate, h]
  | some d => simp [extractDate, h]

/-! ### Claim theorems -/

/-- C1: for every feed whose fetch or parse raises, `fetch_feed` catches the
exception, prints a diagnostic line containing the source name and the error
detail, and returns the empty sequence; consequently when every feed carrying
a given source name fails, the aggregate and the final report contain zero
entries attributed to that source, and the run continues with the remaining
feeds. -/
theorem C1_fetch_failure_isolated (c : DateTime) (feeds : List FeedInput)
    (s : String)
    (hfail : ∀ f ∈ feeds, f.2 = s → ∃ e, fetchBody f.1 f.2 = Except.error e) :
    (∀ f ∈ feeds, ∀ e, fetchBody f.1 f.2 = Except.error e →
      fetch_feed f.1 f.2 = ([], [errorLine f.2 e])) ∧
    (∀ x ∈ all_entries c feeds, x.source ≠ s) ∧
    (∀ x ∈ top_10 c feeds, x.source ≠ s) := by
  have hagg : ∀ x ∈ all_entries c feeds, x.source ≠ s := by
    intro x hx hxs
    obtain ⟨⟨f, hf, hxf⟩, -⟩ := (mem_all_entries c feeds x).mp hx
    have hsrc : x.source = f.2 := fetch_feed_source f.1 f.2 x hxf
    obtain ⟨e, he⟩ := hfail f hf (by rw [← hsrc, hxs])
    rw [fetch_feed, he] at hxf
    cases hxf
  refine ⟨?_, hagg, ?_⟩
  · intro f _ e he
    rw [fetch_feed, he]
  · intro x hx
    exact hagg x (List.mem_mergeSort.mp (List.take_subset 10 _ hx))

/-- Witness for C1 at a concrete failing feed. -/
theorem C1_witness :
    (∀ f ∈ ([(Except.error "boom", "TechCrunch")] : List FeedInput),
      ∀ e, fetchBody f.1 f.2 = Except.error e →
        fetch_feed f.1 f.2 = ([], [errorLine f.2 e])) ∧
    (∀ x ∈ all_entries ⟨2026, 10, 11, 12, 0, 0⟩
        [(Except.error "boom", "TechCrunch")], x.source ≠ "TechCrunch") ∧
    (∀ x ∈ top_10 ⟨2026, 10, 11, 12, 0, 0⟩
        [(Except.error "boom", "TechCrunch")], x.source ≠ "TechCrunch") :=
  C1_fetch_failure_isolated ⟨2026, 10, 11, 12, 0, 0⟩
    [(Except.error "boom", "TechCrunch")] "TechCrunch"
    (by
      intro f hf _
      rw [List.mem_singleton] at hf
      subst hf
      exact ⟨"boom", rfl⟩)

/-- C2 counterexample: a raw entry among the first 5 that lacks its `title`
makes the whole fetch fail — the fetch does not return a normalized record
for every such entry (here: one entry in, zero records out). -/
theorem C2_counterexample :
    (fetch_feed (Except.ok [(⟨none, none, none, none⟩ : RawEntry)])
        "TechCrunch").1.length ≠
      (([(⟨none, none, none, none⟩ : RawEntry)]).take 5).length := by
  decide

/-- C2 (amended): for every raw feed entry among the first 5 that carries a
`title`, the normalizer tolerates missing `published`, `updated` or `link`
fields without failing the whole fetch, returning a normalized record per
entry with the stated defaults (no timestamp resp. empty link); an entry
lacking `title` is not tolerated. -/
theorem C2_missing_fields_tolerated (rs : List RawEntry) (s : String)
    (htitle : ∀ e ∈ rs.take 5, e.title.isSome) :
    (fetch_feed (Except.ok rs) s).1 =
      (rs.take 5).map (fun e =>
        { headline := e.title.getD ""
          source := s
          date := extractDate e
          link := e.link.getD "" }) := by
  rw [fetch_feed, fetchBody, normalizeLoop_ok_of_titles s (rs.take 5) htitle]

/-- Witness for the amended C2: two entries with titles but no dates and no
links are both normalized, with default fields. -/
theorem C2_witness :
    (fetch_feed (Except.ok
        [(⟨some "A", none, none, none⟩ : RawEntry),
         (⟨some "B", none, some ⟨2026, 10, 12, 9, 0, 0⟩, none⟩ : RawEntry)])
        "The Verge").1 =
      (([(⟨some "A", none, none, none⟩ : RawEntry),
         (⟨some "B", none, some ⟨2026, 10, 12, 9, 0, 0⟩, none⟩ : RawEntry)]).take 5).map
        (fun e =>
          { headline := e.title.getD ""
            source := "The Verge"
            date := extractDate e
            link := e.link.getD "" }) :=
  C2_missing_fields_tolerated
    [⟨some "A", none, none, none⟩,
     ⟨some "B", none, some ⟨2026, 10, 12, 9, 0, 0⟩, none⟩]
    "The Verge" (by decide)

/-- C10: `fetch_feed` is all-or-nothing per feed — if normalizing any of the
first 5 entries raises (here: a raw entry lacking the `title` attribute), the
function returns the empty list, discarding even the entries already
normalized before the failure. -/
theorem C10_all_or_nothing (rs : List RawEntry) (s : String)
    (h : ∃ e ∈ rs.take 5, e.title = none) :
    fetch_feed (Except.ok rs) s = ([], [errorLine s titleError]) := by
  rw [fetch_feed, fetchBody, normalizeLoop_error_of_missing_title s (rs.take 5) h]

/-- Witness for C10: the first entry normalizes fine, the second lacks a
title; the whole feed comes back empty. -/
theorem C10_witness :
    fetch_feed (Except.ok
        [(⟨some "Good", some ⟨2026, 10, 12, 8, 0, 0⟩, none, some "x"⟩ : RawEntry),
         (⟨none, none, none, none⟩ : RawEntry)]) "Wired" =
      ([], [errorLine "Wired" titleError]) :=
  C10_all_or_nothing
    [⟨some "Good", some ⟨2026, 10, 12, 8, 0, 0⟩, none, some "x"⟩,
     ⟨none, none, none, none⟩]
    "Wired" (by decide)

/-- C3: a normalized entry is included in the pre-sort aggregate iff it was
fetched from some feed and its `publishedAt` is absent or at least the cutoff
(`now - 24h`); consequently every entry of the final report has an absent
date or a date at least the cutoff (entries strictly older are excluded), and
dateless entries pass the filter. -/
theorem C3_recency_filter (c : DateTime) (feeds : List FeedInput)
    (x : NormalizedEntry) :
    (x ∈ all_entries c feeds ↔
      ((∃ f ∈ feeds, x ∈ (fetch_feed f.1 f.2).1) ∧
        (x.date = none ∨ ∃ d, x.date = some d ∧ DateTime.le c d = true))) ∧
    (∀ y ∈ top_10 c feeds,
      y.date = none ∨ ∃ d, y.date = some d ∧ DateTime.le c d = true) := by
  constructor
  · exact (mem_all_entries c feeds x).trans
      (and_congr_right fun _ => qualifies_iff c x)
  · intro y hy
    have hy' : y ∈ all_entries c feeds :=
      List.mem_mergeSort.mp (List.take_subset 10 _ hy)
    exact (qualifies_iff c y).mp ((mem_all_entries c feeds y).mp hy').2

/-- Witness for C3 at a concrete cutoff, feed list and entry. -/
theorem C3_witness :
    ((⟨"A", "TechCrunch", some ⟨2026, 10, 12, 9, 0, 0⟩, ""⟩ : NormalizedEntry) ∈
        all_entries ⟨2026, 10, 11, 12, 0, 0⟩
          [(Except.ok [⟨some "A", some ⟨2026, 10, 12, 9, 0, 0⟩, none, none⟩],
            "TechCrunch")] ↔
      ((∃ f ∈ ([(Except.ok [⟨some "A", some ⟨2026, 10, 12, 9, 0, 0⟩, none, none⟩],
            "TechCrunch")] : List FeedInput),
          (⟨"A", "TechCrunch", some ⟨2026, 10, 12, 9, 0, 0⟩, ""⟩ : NormalizedEntry) ∈
            (fetch_feed f.1 f.2).1) ∧
        ((⟨"A", "TechCrunch", some ⟨2026, 10, 12, 9, 0, 0⟩, ""⟩ : NormalizedEntry).date = none ∨
          ∃ d, (⟨"A", "TechCrunch", some ⟨2026, 10, 12, 9, 0, 0⟩, ""⟩ : NormalizedEntry).date = some d ∧
            DateTime.le ⟨2026, 10, 11, 12, 0, 0⟩ d = true))) ∧
    (∀ y ∈ top_10 ⟨2026, 10, 11, 12, 0, 0⟩
        [(Except.ok [⟨some "A", some ⟨2026, 10, 12, 9, 0, 0⟩, none, none⟩],
          "TechCrunch")],
      y.date = none ∨ ∃ d, y.date = some d ∧
        DateTime.le ⟨2026, 10, 11, 12, 0, 0⟩ d = true) :=
  C3_recency_filter ⟨2026, 10, 11, 12, 0, 0⟩
    [(Except.ok [⟨some "A", some ⟨2026, 10, 12, 9, 0, 0⟩, none, none⟩],
      "TechCrunch")]
    ⟨"A", "TechCrunch", some ⟨2026, 10, 12, 9, 0, 0⟩, ""⟩

/-- C5: the final report is the first 10 elements after sorting — it has
`min 10 n` entries when `n` qualify (so at most 10, and exactly 10 whenever
12 or more qualify), and the date key of every kept entry is at least the
date key of every dropped entry (the 10 most recent are kept). -/
theorem C5_truncation (c : DateTime) (feeds : List FeedInput) :
    (top_10 c feeds).length = min 10 (all_entries c feeds).length ∧
    ∀ a ∈ top_10 c feeds, ∀ b ∈ (sortedEntries c feeds).drop 10,
      DateTime.le (sortKey b) (sortKey a) = true := by
  constructor
  · show ((sortedEntries c feeds).take 10).length = _
    rw [List.length_take, sortedEntries, List.length_mergeSort]
  · have hp : ((all_entries c feeds).mergeSort sortLe).Pairwise
        (fun a b => sortLe a b = true) :=
      List.sorted_mergeSort sortLe_trans sortLe_total (all_entries c feeds)
    rw [← List.take_append_drop 10 ((all_entries c feeds).mergeSort sortLe)] at hp
    obtain ⟨-, -, hcross⟩ := List.pairwise_append.mp hp
    intro a ha b hb
    exact hcross a ha b hb

/-- Witness for C5 at a concrete run with 12 qualifying entries across three
feeds (5 + 5 + 2, all recent). -/
theorem C5_witness :
    (top_10 ⟨2026, 10, 11, 12, 0, 0⟩
        [(Except.ok
            [⟨some "a1", some ⟨2026, 10, 12, 11, 0, 0⟩, none, none⟩,
             ⟨some "a2", some ⟨2026, 10, 12, 10, 0, 0⟩, none, none⟩,
             ⟨some "a3", some ⟨2026, 10, 12, 9, 0, 0⟩, none, none⟩,
             ⟨some "a4", some ⟨2026, 10, 12, 8, 0, 0⟩, none, none⟩,
             ⟨some "a5", some ⟨2026, 10, 12, 7, 0, 0⟩, none, none⟩], "TechCrunch"),
         (Except.ok
            [⟨some "b1", some ⟨2026, 10, 12, 6, 0, 0⟩, none, none⟩,
             ⟨some "b2", some ⟨2026, 10, 12, 5, 0, 0⟩, none, none⟩,
             ⟨some "b3", some ⟨2026, 10, 12, 4, 0, 0⟩, none, none⟩,
             ⟨some "b4", some ⟨2026, 10, 12, 3, 0, 0⟩, none, none⟩,
             ⟨some "b5", some ⟨2026, 10, 12, 2, 0, 0⟩, none, none⟩], "Wired"),
         (Except.ok
            [⟨some "c1", some ⟨2026, 10, 12, 1, 0, 0⟩, none, none⟩,
             ⟨some "c2", some ⟨2026, 10, 12, 0, 30, 0⟩, none, none⟩], "BBC Tech")]).length =
      min 10 (all_entries ⟨2026, 10, 11, 12, 0, 0⟩
        [(Except.ok
            [⟨some "a1", some ⟨2026, 10, 12, 11, 0, 0⟩, none, none⟩,
             ⟨some "a2", some ⟨2026, 10, 12, 10, 0, 0⟩, none, none⟩,
             ⟨some "a3", some ⟨2026, 10, 12, 9, 0, 0⟩, none, none⟩,
             ⟨some "a4", some ⟨2026, 10, 12, 8, 0, 0⟩, none, none⟩,
             ⟨some "a5", some ⟨2026, 10, 12, 7, 0, 0⟩, none, none⟩], "TechCrunch"),
         (Except.ok
            [⟨some "b1", some ⟨2026, 10, 12, 6, 0, 0⟩, none, none⟩,
             ⟨some "b2", some ⟨2026, 10, 12, 5, 0, 0⟩, none, none⟩,
             ⟨some "b3", some ⟨2026, 10, 12, 4, 0, 0⟩, none, none⟩,
             ⟨some "b4", some ⟨2026, 10, 12, 3, 0, 0⟩, none, none⟩,
             ⟨some "b5", some ⟨2026, 10, 12, 2, 0, 0⟩, none, none⟩], "Wired"),
         (Except.ok
            [⟨some "c1", some ⟨2026, 10, 12, 1, 0, 0⟩, none, none⟩,
             ⟨some "c2", some ⟨2026, 10, 12, 0, 30, 0⟩, none, none⟩], "BBC Tech")]).length ∧
    ∀ a ∈ top_10 ⟨2026, 10, 11, 12, 0, 0⟩
        [(Except.ok
            [⟨some "a1", some ⟨2026, 10, 12, 11, 0, 0⟩, none, none⟩,
             ⟨some "a2", some ⟨2026, 10, 12, 10, 0, 0⟩, none, none⟩,
             ⟨some "a3", some ⟨2026, 10, 12, 9, 0, 0⟩, none, none⟩,
             ⟨some "a4", some ⟨2026, 10, 12, 8, 0, 0⟩, none, none⟩,
             ⟨some "a5", some ⟨2026, 10, 12, 7, 0, 0⟩, none, none⟩], "TechCrunch"),
         (Except.ok
            [⟨some "b1", some ⟨2026, 10, 12, 6, 0, 0⟩, none, none⟩,
             ⟨some "b2", some ⟨2026, 10, 12, 5, 0, 0⟩, none, none⟩,
             ⟨some "b3", some ⟨2026, 10, 12, 4, 0, 0⟩, none, none⟩,
             ⟨some "b4", some ⟨2026, 10, 12, 3, 0, 0⟩, none, none⟩,
             ⟨some "b5", some ⟨2026, 10, 12, 2, 0, 0⟩, none, none⟩], "Wired"),
         (Except.ok
            [⟨some "c1", some ⟨2026, 10, 12, 1, 0, 0⟩, none, none⟩,
             ⟨some "c2", some ⟨2026, 10, 12, 0, 30, 0⟩, none, none⟩], "BBC Tech")],
      ∀ b ∈ (sortedEntries ⟨2026, 10, 11, 12, 0, 0⟩
        [(Except.ok
            [⟨some "a1", some ⟨2026, 10, 12, 11, 0, 0⟩, none, none⟩,
             ⟨some "a2", some ⟨2026, 10, 12, 10, 0, 0⟩, none, none⟩,
             ⟨some "a3", some ⟨2026, 10, 12, 9, 0, 0⟩, none, none⟩,
             ⟨some "a4", some ⟨2026, 10, 12, 8, 0, 0⟩, none, none⟩,
             ⟨some "a5", some ⟨2026, 10, 12, 7, 0, 0⟩, none, none⟩], "TechCrunch"),
         (Except.ok
            [⟨some "b1", some ⟨2026, 10, 12, 6, 0, 0⟩, none, none⟩,
             ⟨some "b2", some ⟨2026, 10, 12, 5, 0, 0⟩, none, none⟩,
             ⟨some "b3", some ⟨2026, 10, 12, 4, 0, 0⟩, none, none⟩,
             ⟨some "b4", some ⟨2026, 10, 12, 3, 0, 0⟩, none, none⟩,
             ⟨some "b5", some ⟨2026, 10, 12, 2, 0, 0⟩, none, none⟩], "Wired"),
         (Except.ok
            [⟨some "c1", some ⟨2026, 10, 12, 1, 0, 0⟩, none, none⟩,
             ⟨some "c2", some ⟨2026, 10, 12, 0, 30, 0⟩, none, none⟩], "BBC Tech")]).drop 10,
        DateTime.le (sortKey b) (sortKey a) = true :=
  C5_truncation ⟨2026, 10, 11, 12, 0, 0⟩
    [(Except.ok
        [⟨some "a1", some ⟨2026, 10, 12, 11, 0, 0⟩, none, none⟩,
         ⟨some "a2", some ⟨2026, 10, 12, 10, 0, 0⟩, none, none⟩,
         ⟨some "a3", some ⟨2026, 10, 12, 9, 0, 0⟩, none, none⟩,
         ⟨some "a4", some ⟨2026, 10, 12, 8, 0, 0⟩, none, none⟩,
         ⟨some "a5", some ⟨2026, 10, 12, 7, 0, 0⟩, none, none⟩], "TechCrunch"),
     (Except.ok
        [⟨some "b1", some ⟨2026, 10, 12, 6, 0, 0⟩, none, none⟩,
         ⟨some "b2", some ⟨2026, 10, 12, 5, 0, 0⟩, none, none⟩,
         ⟨some "b3", some ⟨2026, 10, 12, 4, 0, 0⟩, none, none⟩,
         ⟨some "b4", some ⟨2026, 10, 12, 3, 0, 0⟩, none, none⟩,
         ⟨some "b5", some ⟨2026, 10, 12, 2, 0, 0⟩, none, none⟩], "Wired"),
     (Except.ok
        [⟨some "c1", some ⟨2026, 10, 12, 1, 0, 0⟩, none, none⟩,
         ⟨some "c2", some ⟨2026, 10, 12, 0, 30, 0⟩, none, none⟩], "BBC Tech")]

/-- C6: a raw entry that is normalized gets its timestamp by precedence —
the `published` timestamp when present, else the `updated` timestamp when
present, else none; in particular an item with only an `updated` timestamp
gets that timestamp as `publishedAt`. (All modelled timestamps are UTC.) -/
theorem C6_timestamp_precedence (s : String) (e : RawEntry)
    (ne : NormalizedEntry) (h : normalizeEntry s e = Except.ok ne) :
    (∀ p, e.published_parsed = some p → ne.date = some p) ∧
    (e.published_parsed = none → ne.date = e.updated_parsed) := by
  have hd : ne.date = extractDate e :=
    ((normalizeEntry_ok_iff s e ne).mp h).2.2.1
  constructor
  · intro p hp
    rw [hd]
    simp [extractDate, hp]
  · intro hp
    rw [hd]
    simp [extractDate, hp]

/-- Witness for C6: an entry with only an `updated` timestamp. -/
theorem C6_witness :
    (∀ p, (⟨some "U", none, some ⟨2026, 10, 12, 7, 30, 0⟩, none⟩ : RawEntry).published_parsed = some p →
      (⟨"U", "BBC Tech", some ⟨2026, 10, 12, 7, 30, 0⟩, ""⟩ : NormalizedEntry).date = some p) ∧
    ((⟨some "U", none, some ⟨2026, 10, 12, 7, 30, 0⟩, none⟩ : RawEntry).published_parsed = none →
      (⟨"U", "BBC Tech", some ⟨2026, 10, 12, 7, 30, 0⟩, ""⟩ : NormalizedEntry).date =
        (⟨some "U", none, some ⟨2026, 10, 12, 7, 30, 0⟩, none⟩ : RawEntry).updated_parsed) :=
  C6_timestamp_precedence "BBC Tech"
    ⟨some "U", none, some ⟨2026, 10, 12, 7, 30, 0⟩, none⟩
    ⟨"U", "BBC Tech", some ⟨2026, 10, 12, 7, 30, 0⟩, ""⟩ rfl

/-- C7: `fetch_feed` returns at most 5 entries, and every returned entry is
the normalization of one of the first 5 parsed entries of the feed. -/
theorem C7_first_five (feed : Except String (List RawEntry)) (s : String) :
    (fetch_feed feed s).1.length ≤ 5 ∧
    ∀ x ∈ (fetch_feed feed s).1,
      ∃ rs, feed = Except.ok rs ∧
        ∃ raw ∈ rs.take 5, normalizeEntry s raw = Except.ok x := by
  constructor
  · cases feed with
    | error e => simp [fetch_feed, fetchBody]
    | ok rs =>
      cases hloop : normalizeLoop s (rs.take 5) with
      | error err => simp [fetch_feed, fetchBody, hloop]
      | ok res =>
        simp only [fetch_feed, fetchBody, hloop]
        rw [normalizeLoop_length s (rs.take 5) res hloop]
        exact List.length_take_le 5 rs
  · exact mem_fetch_feed feed s

/-- Witness for C7 at a feed with 7 parsed entries. -/
theorem C7_witness :
    (fetch_feed (Except.ok
        [(⟨some "1", none, none, none⟩ : RawEntry), ⟨some "2", none, none, none⟩,
         ⟨some "3", none, none, none⟩, ⟨some "4", none, none, none⟩,
         ⟨some "5", none, none, none⟩, ⟨some "6", none, none, none⟩,
         ⟨some "7", none, none, none⟩]) "Ars Technica").1.length ≤ 5 ∧
    ∀ x ∈ (fetch_feed (Except.ok
        [(⟨some "1", none, none, none⟩ : RawEntry), ⟨some "2", none, none, none⟩,
         ⟨some "3", none, none, none⟩, ⟨some "4", none, none, none⟩,
         ⟨some "5", none, none, none⟩, ⟨some "6", none, none, none⟩,
         ⟨some "7", none, none, none⟩]) "Ars Technica").1,
      ∃ rs, (Except.ok
        [(⟨some "1", none, none, none⟩ : RawEntry), ⟨some "2", none, none, none⟩,
         ⟨some "3", none, none, none⟩, ⟨some "4", none, none, none⟩,
         ⟨some "5", none, none, none⟩, ⟨some "6", none, none, none⟩,
         ⟨some "7", none, none, none⟩] : Except String (List RawEntry)) = Except.ok rs ∧
        ∃ raw ∈ rs.take 5, normalizeEntry "Ars Technica" raw = Except.ok x :=
  C7_first_five (Except.ok
    [⟨some "1", none, none, none⟩, ⟨some "2", none, none, none⟩,
     ⟨some "3", none, none, none⟩, ⟨some "4", none, none, none⟩,
     ⟨some "5", none, none, none⟩, ⟨some "6", none, none, none⟩,
     ⟨some "7", none, none, none⟩]) "Ars Technica"

/-- C8: every entry produced by `fetch_feed` has its `source` equal to the
supplied display name, its `link` defaulted from the raw entry (empty string
when the raw entry lacks a link), and its date `none` exactly when the raw
entry carries neither a published nor an updated timestamp. -/
theorem C8_invariants (feed : Except String (List RawEntry)) (s : String) :
    (∀ x ∈ (fetch_feed feed s).1, x.source = s) ∧
    (∀ x ∈ (fetch_feed feed s).1,
      ∃ rs, feed = Except.ok rs ∧ ∃ raw ∈ rs.take 5,
        x.link = raw.link.getD "" ∧
        (raw.link = none → x.link = "") ∧
        (x.date = none ↔
          (raw.published_parsed = none ∧ raw.updated_parsed = none))) := by
  refine ⟨fetch_feed_source feed s, ?_⟩
  intro x hx
  obtain ⟨rs, hfeed, raw, hraw, hok⟩ := mem_fetch_feed feed s x hx
  obtain ⟨-, -, hdate, hlink⟩ := (normalizeEntry_ok_iff s raw x).mp hok
  refine ⟨rs, hfeed, raw, hraw, hlink, ?_, ?_⟩
  · intro hnone
    rw [hlink, hnone]
    rfl
  · rw [hdate]
    exact extractDate_eq_none_iff raw

/-- Witness for C8 at a feed whose single entry has no link and no dates. -/
theorem C8_witness :
    (∀ x ∈ (fetch_feed (Except.ok [(⟨some "T", none, none, none⟩ : RawEntry)])
        "The Verge").1, x.source = "The Verge") ∧
    (∀ x ∈ (fetch_feed (Except.ok [(⟨some "T", none, none, none⟩ : RawEntry)])
        "The Verge").1,
      ∃ rs, (Except.ok [(⟨some "T", none, none, none⟩ : RawEntry)] :
          Except String (List RawEntry)) = Except.ok rs ∧
        ∃ raw ∈ rs.take 5,
          x.link = raw.link.getD "" ∧
          (raw.link = none → x.link = "") ∧
          (x.date = none ↔
            (raw.published_parsed = none ∧ raw.updated_parsed = none))) :=
  C8_invariants (Except.ok [⟨some "T", none, none, none⟩]) "The Verge"

theorem sortedEntries_tied :
    sortedEntries cutoffTied feedsTied =
      [⟨"A", "TechCrunch", some ⟨2026, 10, 12, 9, 0, 0⟩, ""⟩,
       ⟨"B", "TechCrunch", some ⟨2026, 10, 12, 9, 0, 0⟩, ""⟩] := by
  have hall : all_entries cutoffTied feedsTied =
      [⟨"A", "TechCrunch", some ⟨2026, 10, 12, 9, 0, 0⟩, ""⟩,
       ⟨"B", "TechCrunch", some ⟨2026, 10, 12, 9, 0, 0⟩, ""⟩] := by decide
  show (all_entries cutoffTied feedsTied).mergeSort sortLe = _
  rw [hall]
  exact List.mergeSort_of_sorted (by decide)

/-- C4 counterexample: the claimed order characterization — "A appears before
B iff A.publishedAt ≥ B.publishedAt", for distinct retained entries with
defined timestamps — fails on a concrete run where two entries share the same
timestamp: the later-placed entry also satisfies key-≥, yet does not appear
first. -/
theorem C4_counterexample :
    ¬ (∀ (i j : Nat) (A B : NormalizedEntry),
        (sortedEntries cutoffTied feedsTied)[i]? = some A →
        (sortedEntries cutoffTied feedsTied)[j]? = some B →
        i ≠ j → ∀ dA dB, A.date = some dA → B.date = some dB →
        (i < j ↔ DateTime.le dB dA = true)) := by
  intro hclaim
  have h1 : (sortedEntries cutoffTied feedsTied)[1]? =
      some ⟨"B", "TechCrunch", some ⟨2026, 10, 12, 9, 0, 0⟩, ""⟩ := by
    rw [sortedEntries_tied]
    rfl
  have h0 : (sortedEntries cutoffTied feedsTied)[0]? =
      some ⟨"A", "TechCrunch", some ⟨2026, 10, 12, 9, 0, 0⟩, ""⟩ := by
    rw [sortedEntries_tied]
    rfl
  have h10 := (hclaim 1 0 _ _ h1 h0 (by omega)
      ⟨2026, 10, 12, 9, 0, 0⟩ ⟨2026, 10, 12, 9, 0, 0⟩ rfl rfl).mpr
    (DateTime.le_refl ⟨2026, 10, 12, 9, 0, 0⟩)
  omega

/-- C4 (amended): the retained entries are ordered by a stable descending
sort on the date key (dateless entries carry the minimal key): (1) the sorted
aggregate is pairwise descending in the key; (2) for retained entries A
before B with defined timestamps, A.publishedAt ≥ B.publishedAt; (3) an entry
with a strictly greater key appears strictly earlier; (4) any two entries in
descending (in particular equal) key order in the pre-sort aggregate keep
their relative order (stability). The original "iff" holds only up to ties,
where the pre-sort order decides. -/
theorem C4_sort_order (c : DateTime) (feeds : List FeedInput) :
    ((sortedEntries c feeds).Pairwise
      (fun a b => DateTime.le (sortKey b) (sortKey a) = true)) ∧
    (∀ (i j : Nat) (A B : NormalizedEntry),
      (sortedEntries c feeds)[i]? = some A →
      (sortedEntries c feeds)[j]? = some B → i < j →
      ∀ dA dB, A.date = some dA → B.date = some dB →
      DateTime.le dB dA = true) ∧
    (∀ (i j : Nat) (A B : NormalizedEntry),
      (sortedEntries c feeds)[i]? = some A →
      (sortedEntries c feeds)[j]? = some B →
      DateTime.le (sortKey A) (sortKey B) = false → i < j) ∧
    (∀ A B, [A, B].Sublist (all_entries c feeds) →
      DateTime.le (sortKey B) (sortKey A) = true →
      [A, B].Sublist (sortedEntries c feeds)) := by
  have hp : (sortedEntries c feeds).Pairwise (fun a b => sortLe a b = true) :=
    List.sorted_mergeSort sortLe_trans sortLe_total (all_entries c feeds)
  have hidx := List.pairwise_iff_getElem.mp hp
  refine ⟨hp, ?_, ?_, ?_⟩
  · intro i j A B hA hB hij dA dB hdA hdB
    obtain ⟨hi, hAi⟩ := List.getElem?_eq_some_iff.mp hA
    obtain ⟨hj, hBj⟩ := List.getElem?_eq_some_iff.mp hB
    have hrel := hidx i j hi hj hij
    rw [hAi, hBj] at hrel
    have hkA : sortKey A = dA := by rw [sortKey, hdA]; rfl
    have hkB : sortKey B = dB := by rw [sortKey, hdB]; rfl
    simp only [sortLe] at hrel
    rw [hkA, hkB] at hrel
    exact hrel
  · intro i j A B hA hB hlt
    obtain ⟨hi, hAi⟩ := List.getElem?_eq_some_iff.mp hA
    obtain ⟨hj, hBj⟩ := List.getElem?_eq_some_iff.mp hB
    rcases Nat.lt_trichotomy i j with h | h | h
    · exact h
    · exfalso
      subst h
      have hAB : A = B := by rw [← hAi, hBj]
      subst hAB
      have hrefl := DateTime.le_refl (sortKey A)
      rw [hlt] at hrefl
      exact Bool.false_ne_true hrefl
    · exfalso
      have hrel := hidx j i hj hi h
      rw [hBj, hAi] at hrel
      simp only [sortLe] at hrel
      rw [hlt] at hrel
      exact Bool.false_ne_true hrel
  · intro A B hsub hAB
    exact List.pair_sublist_mergeSort sortLe_trans sortLe_total hAB hsub

/-- Witness for the amended C4 at the tied concrete run. -/
theorem C4_witness :
    ((sortedEntries cutoffTied feedsTied).Pairwise
      (fun a b => DateTime.le (sortKey b) (sortKey a) = true)) ∧
    (∀ (i j : Nat) (A B : NormalizedEntry),
      (sortedEntries cutoffTied feedsTied)[i]? = some A →
      (sortedEntries cutoffTied feedsTied)[j]? = some B → i < j →
      ∀ dA dB, A.date = some dA → B.date = some dB →
      DateTime.le dB dA = true) ∧
    (∀ (i j : Nat) (A B : NormalizedEntry),
      (sortedEntries cutoffTied feedsTied)[i]? = some A →
      (sortedEntries cutoffTied feedsTied)[j]? = some B →
      DateTime.le (sortKey A) (sortKey B) = false → i < j) ∧
    (∀ A B, [A, B].Sublist (all_entries cutoffTied feedsTied) →
      DateTime.le (sortKey B) (sortKey A) = true →
      [A, B].Sublist (sortedEntries cutoffTied feedsTied)) :=
  C4_sort_order cutoffTied feedsTied

theorem renderItems_length (k : Nat) (l : List NormalizedEntry) :
    (renderItems k l).length = 4 * l.length := by
  induction l generalizing k with
  | nil => rfl
  | cons x xs ih =>
    simp only [renderItems, List.length_cons, ih]
    omega

theorem renderItems_drop :
    ∀ (l : List NormalizedEntry) (i k : Nat), i ≤ l.length →
      (renderItems k l).drop (4 * i) = renderItems (k + i) (l.drop i) := by
  intro l
  induction l with
  | nil =>
    intro i k hi
    have hz : i = 0 := Nat.le_zero.mp hi
    subst hz
    rfl
  | cons x xs ih =>
    intro i k hi
    cases i with
    | zero => simp
    | succ j =>
      have h4 : 4 * (j + 1) = 4 * j + 1 + 1 + 1 + 1 := by ring
      rw [h4]
      simp only [renderItems, List.drop_succ_cons]
      have hj : j ≤ xs.length := by
        rw [List.length_cons] at hi
        omega
      rw [ih j (k + 1) hj]
      have hk : k + 1 + j = k + (j + 1) := by omega
      rw [hk]

/-- C9: the reporter is total over normalized entries and emits a header
line stating the count, a separator rule of 80 equals signs, and then for
each entry (1-indexed) four lines: the numbered headline, the source, the
date rendered as `YYYY-MM-DD HH:MM UTC` when present or the literal marker
`Unknown` when absent, and a blank line. -/
theorem C9_reporter (l : List NormalizedEntry) :
    (render l).length = 2 + 4 * l.length ∧
    (render l).take 2 =
      ["Top " ++ toString l.length ++ " Technology News Headlines\n",
       separatorLine] ∧
    ∀ i (h : i < l.length),
      (∀ d, l[i].date = some d →
        ((render l).drop (4 * i + 2)).take 4 =
          [toString (i + 1) ++ ". " ++ l[i].headline,
           "   Source: " ++ l[i].source,
           "   Date: " ++ (pad4 d.year ++ "-" ++ pad2 d.month ++ "-" ++
             pad2 d.day ++ " " ++ pad2 d.hour ++ ":" ++ pad2 d.minute ++ " UTC"),
           ""]) ∧
      (l[i].date = none →
        ((render l).drop (4 * i + 2)).take 4 =
          [toString (i + 1) ++ ". " ++ l[i].headline,
           "   Source: " ++ l[i].source,
           "   Date: Unknown",
           ""]) := by
  refine ⟨?_, rfl, ?_⟩
  · simp only [render, List.length_cons, renderItems_length]
    omega
  · intro i h
    have hdrop : (render l).drop (4 * i + 2) = renderItems (1 + i) (l.drop i) := by
      show (renderItems 1 l).drop (4 * i) = renderItems (1 + i) (l.drop i)
      exact renderItems_drop l i 1 (Nat.le_of_lt h)
    have h1i : 1 + i = i + 1 := Nat.add_comm 1 i
    rw [h1i] at hdrop
    have hcons : l.drop i = l[i] :: l.drop (i + 1) := List.drop_eq_getElem_cons h
    rw [hcons] at hdrop
    constructor
    · intro d hd
      rw [hdrop]
      simp only [renderItems, hd]
      rfl
    · intro hd
      rw [hdrop]
      simp only [renderItems, hd]
      rfl

/-- Witness for C9 at a two-entry report, one dated and one dateless. -/
theorem C9_witness :
    (render [(⟨"H1", "TechCrunch", some ⟨2026, 10, 12, 9, 5, 0⟩, ""⟩ : NormalizedEntry),
             ⟨"H2", "Wired", none, ""⟩]).length =
      2 + 4 * ([(⟨"H1", "TechCrunch", some ⟨2026, 10, 12, 9, 5, 0⟩, ""⟩ : NormalizedEntry),
             ⟨"H2", "Wired", none, ""⟩] : List NormalizedEntry).length ∧
    (render [(⟨"H1", "TechCrunch", some ⟨2026, 10, 12, 9, 5, 0⟩, ""⟩ : NormalizedEntry),
             ⟨"H2", "Wired", none, ""⟩]).take 2 =
      ["Top " ++ toString ([(⟨"H1", "TechCrunch", some ⟨2026, 10, 12, 9, 5, 0⟩, ""⟩ : NormalizedEntry),
             ⟨"H2", "Wired", none, ""⟩] : List NormalizedEntry).length ++
          " Technology News Headlines\n",
       separatorLine] ∧
    ∀ i (h : i < ([(⟨"H1", "TechCrunch", some ⟨2026, 10, 12, 9, 5, 0⟩, ""⟩ : NormalizedEntry),
             ⟨"H2", "Wired", none, ""⟩] : List NormalizedEntry).length),
      (∀ d, [(⟨"H1", "TechCrunch", some ⟨2026, 10, 12, 9, 5, 0⟩, ""⟩ : NormalizedEntry),
             ⟨"H2", "Wired", none, ""⟩][i].date = some d →
        ((render [(⟨"H1", "TechCrunch", some ⟨2026, 10, 12, 9, 5, 0⟩, ""⟩ : NormalizedEntry),
             ⟨"H2", "Wired", none, ""⟩]).drop (4 * i + 2)).take 4 =
          [toString (i + 1) ++ ". " ++
              [(⟨"H1", "TechCrunch", some ⟨2026, 10, 12, 9, 5, 0⟩, ""⟩ : NormalizedEntry),
               ⟨"H2", "Wired", none, ""⟩][i].headline,
           "   Source: " ++
              [(⟨"H1", "TechCrunch", some ⟨2026, 10, 12, 9, 5, 0⟩, ""⟩ : NormalizedEntry),
               ⟨"H2", "Wired", none, ""⟩][i].source,
           "   Date: " ++ (pad4 d.year ++ "-" ++ pad2 d.month ++ "-" ++
             pad2 d.day ++ " " ++ pad2 d.hour ++ ":" ++ pad2 d.minute ++ " UTC"),
           ""]) ∧
      ([(⟨"H1", "TechCrunch", some ⟨2026, 10, 12, 9, 5, 0⟩, ""⟩ : NormalizedEntry),
        ⟨"H2", "Wired", none, ""⟩][i].date = none →
        ((render [(⟨"H1", "TechCrunch", some ⟨2026, 10, 12, 9, 5, 0⟩, ""⟩ : NormalizedEntry),
             ⟨"H2", "Wired", none, ""⟩]).drop (4 * i + 2)).take 4 =
          [toString (i + 1) ++ ". " ++
              [(⟨"H1", "TechCrunch", some ⟨2026, 10, 12, 9, 5, 0⟩, ""⟩ : NormalizedEntry),
               ⟨"H2", "Wired", none, ""⟩][i].headline,
           "   Source: " ++
              [(⟨"H1", "TechCrunch", some ⟨2026, 10, 12, 9, 5, 0⟩, ""⟩ : NormalizedEntry),
               ⟨"H2", "Wired", none, ""⟩][i].source,
           "   Date: Unknown",
           ""]) :=
  C9_reporter
    [⟨"H1", "TechCrunch", some ⟨2026, 10, 12, 9, 5, 0⟩, ""⟩,
     ⟨"H2", "Wired", none, ""⟩]

end TechNews
